import Mathlib

/-!
Verification of the biomed paper aggregation pipeline
(`biomed_fetcher.py` and `biomed_paper.py`).

The Python code is shallowly embedded: pure parsing and normalization
logic becomes Lean functions; HTTP round-trips become oracle parameters
(`Option`-valued responses, `none` modelling a transport failure such as
a timeout, non-success status or connection error, which the source
catches with `try/except`); the unbounded `while` pagination loop takes
explicit fuel.  Python string operations used by the code (`lower`,
`strip`, `replace(" ", "_")`, substring `in`, `join`, `split`) are
embedded as executable list-based functions so that concrete instances
evaluate inside the kernel.
-/

/-! ## Embedded Python string primitives -/

/-- ASCII lower-casing of one character (model of Python `str.lower` per
character). -/
def charLower (c : Char) : Char :=
  if 'A' ≤ c ∧ c ≤ 'Z' then Char.ofNat (c.toNat + 32) else c

/-- Model of Python `str.lower()`. -/
def pyLower (s : String) : String := ⟨s.data.map charLower⟩

/-- Whitespace test used by the model of Python `str.strip()`. -/
def isPyWS (c : Char) : Bool := c = ' ' || c = '\t' || c = '\n' || c = '\r'

/-- Model of Python `str.strip()`: drop leading and trailing whitespace. -/
def pyStrip (s : String) : String :=
  ⟨((s.data.dropWhile isPyWS).reverse.dropWhile isPyWS).reverse⟩

/-- Model of Python `str.replace(" ", "_")`. -/
def spaceToUnderscore (s : String) : String :=
  ⟨s.data.map (fun c => if c = ' ' then '_' else c)⟩

/-- Executable prefix test on character lists. -/
def isPrefixL : List Char → List Char → Bool
  | [], _ => true
  | _ :: _, [] => false
  | a :: as, b :: bs => a = b && isPrefixL as bs

/-- Executable contiguous-subsequence test on character lists. -/
def containsSeq (pat : List Char) : List Char → Bool
  | [] => isPrefixL pat []
  | l@(_ :: rest) => isPrefixL pat l || containsSeq pat rest

/-- Model of Python `pat in s` (substring containment). -/
def pyIn (pat s : String) : Bool := containsSeq pat.data s.data

/-- Model of Python `sep.join(parts)`. -/
def joinSep (sep : String) : List String → String
  | [] => ""
  | [x] => x
  | x :: xs => x ++ sep ++ joinSep sep xs

/-- Auxiliary for `splitOnChar`. -/
def splitCharAux (sep : Char) : List Char → List Char → List String
  | [], acc => [⟨acc.reverse⟩]
  | c :: cs, acc =>
    if c = sep then ⟨acc.reverse⟩ :: splitCharAux sep cs []
    else splitCharAux sep cs (c :: acc)

/-- Model of Python `s.split(";")` for a one-character separator. -/
def splitOnChar (sep : Char) (s : String) : List String :=
  splitCharAux sep s.data []

/-! ## Data model: `BiomedPaper` (`biomed_paper.py`)

The `_data` dict of a constructed `BiomedPaper` is modelled as a
structure holding the keys the construction sites populate.  The
`authors` and `affiliations_raw` entries may be a string or a list in
Python, modelled by a sum type.  The `pmid` key is absent from
bioRxiv/medRxiv paper dicts, modelled by `Option`. -/

/-- A Python value that is either a string or a list of strings. -/
inductive PyStrOrList where
  | str : String → PyStrOrList
  | list : List String → PyStrOrList
deriving DecidableEq, Repr

/-- The `_data` dict of a `BiomedPaper`, as populated by the fetchers. -/
structure PaperData where
  title : String
  abstract : String
  authors : PyStrOrList
  doi : String
  pmid : Option String
  date : String
  journal : String
  affiliations_raw : PyStrOrList
  pdf_url : String
deriving DecidableEq, Repr

/-- A `BiomedPaper` object: its `_data` dict and its `_source` tag. -/
structure BiomedPaper where
  data : PaperData
  source : String
deriving DecidableEq, Repr

/-- Property `BiomedPaper.title`. -/
def BiomedPaper.title (p : BiomedPaper) : String := p.data.title

/-- Property `BiomedPaper.summary` (returns the abstract). -/
def BiomedPaper.summary (p : BiomedPaper) : String := p.data.abstract

/-- Property `BiomedPaper.authors`: a string value is split on `";"` and
each part stripped; a list value is returned as is. -/
def BiomedPaper.authors (p : BiomedPaper) : List String :=
  match p.data.authors with
  | .str s => (splitOnChar ';' s).map pyStrip
  | .list l => l

/-- Property `BiomedPaper.doi`. -/
def BiomedPaper.doi (p : BiomedPaper) : String := p.data.doi

/-- Property `BiomedPaper.paper_id`: PMID for PubMed (defaulting to the
DOI when the `pmid` key is absent), DOI otherwise. -/
def BiomedPaper.paper_id (p : BiomedPaper) : String :=
  if p.source = "pubmed" then p.data.pmid.getD p.data.doi else p.data.doi

/-- Property `BiomedPaper.pdf_url`: the stored link when non-empty, else
a link constructed from the DOI according to the source. -/
def BiomedPaper.pdf_url (p : BiomedPaper) : String :=
  if p.data.pdf_url ≠ "" then p.data.pdf_url
  else if p.source = "biorxiv" then
    "https://www.biorxiv.org/content/" ++ p.data.doi ++ "v1.full.pdf"
  else if p.source = "medrxiv" then
    "https://www.medrxiv.org/content/" ++ p.data.doi ++ "v1.full.pdf"
  else if p.source = "pubmed" ∧ p.data.doi ≠ "" then
    "https://doi.org/" ++ p.data.doi
  else ""

/-- Property `BiomedPaper.abs_url`: landing-page link per source. -/
def BiomedPaper.abs_url (p : BiomedPaper) : String :=
  if p.source = "biorxiv" then "https://www.biorxiv.org/content/" ++ p.data.doi
  else if p.source = "medrxiv" then "https://www.medrxiv.org/content/" ++ p.data.doi
  else if p.source = "pubmed" then
    if p.data.pmid.getD "" ≠ "" then
      "https://pubmed.ncbi.nlm.nih.gov/" ++ p.data.pmid.getD "" ++ "/"
    else if p.data.doi ≠ "" then "https://doi.org/" ++ p.data.doi
    else ""
  else ""

/-- Property `BiomedPaper.source_label`. -/
def BiomedPaper.source_label (p : BiomedPaper) : String :=
  if p.source = "pubmed" then "PubMed"
  else if p.source = "biorxiv" then "bioRxiv"
  else if p.source = "medrxiv" then "medRxiv"
  else p.source

/-- Property `BiomedPaper.date`. -/
def BiomedPaper.date (p : BiomedPaper) : String := p.data.date

/-- Inner loop of the `affiliations` property: strip each raw entry,
drop entries empty after stripping, deduplicate keeping first
occurrences (`seen` is the set of entries already kept). -/
def affilDedupLoop (seen : List String) : List String → List String
  | [] => []
  | a :: rest =>
    let a_clean := pyStrip a
    if a_clean ≠ "" ∧ a_clean ∉ seen then
      a_clean :: affilDedupLoop (a_clean :: seen) rest
    else affilDedupLoop seen rest

/-- Value computed by the `affiliations` cached property: a non-empty
list raw value is cleaned and deduplicated (`None` when nothing
remains); a string raw value yields a singleton when its strip is
non-empty; everything else yields `None`. -/
def BiomedPaper.affiliations (p : BiomedPaper) : Option (List String) :=
  match p.data.affiliations_raw with
  | .list raw =>
    if raw.isEmpty then none
    else
      let result := affilDedupLoop [] raw
      if result.isEmpty then none else some result
  | .str s => if pyStrip s ≠ "" then some [pyStrip s] else none

/-- A `BiomedPaper` object together with the memo slot that
`functools.cached_property` maintains for `affiliations`. -/
structure BiomedPaperObj where
  paper : BiomedPaper
  affiliationsCache : Option (Option (List String))
deriving DecidableEq, Repr

/-- One access to the `affiliations` cached property: return the cached
value when present, else compute it, store it, and return it. -/
def BiomedPaperObj.getAffiliations (o : BiomedPaperObj) :
    Option (List String) × BiomedPaperObj :=
  match o.affiliationsCache with
  | some v => (v, o)
  | none =>
    let v := o.paper.affiliations
    (v, { o with affiliationsCache := some v })

/-! ## bioRxiv / medRxiv fetcher (`fetch_biorxiv_papers`) -/

/-- One record of the preprint-server `collection` array, with the keys
the fetcher reads (`item.get(key, "")` defaults absent keys to `""`). -/
structure BiorxivItem where
  category : String
  title : String
  abstract : String
  authors : String
  doi : String
  date : String
  author_corresponding_institution : String
deriving DecidableEq, Repr

/-- One page of a preprint-server response: the `collection` array and
the `messages[0].total` field (`0` when absent). -/
structure BiorxivResponse where
  collection : List BiorxivItem
  total : Nat
deriving DecidableEq, Repr

/-- Category filter of `fetch_biorxiv_papers`: keep an item when some
supplied category, lower-cased with spaces replaced by underscores, is a
substring of the item's category normalized the same way. -/
def biorxivCategoryKeep (categories : List String) (item : BiorxivItem) : Bool :=
  let item_cat := spaceToUnderscore (pyLower item.category)
  categories.any (fun c => pyIn (spaceToUnderscore (pyLower c)) item_cat)

/-- Keyword filter of `fetch_biorxiv_papers`: keep an item when some
supplied keyword, lower-cased, is a substring of the lower-cased
concatenation of title, a space, and abstract. -/
def biorxivKeywordKeep (keywords : List String) (item : BiorxivItem) : Bool :=
  let text := pyLower (item.title ++ " " ++ item.abstract)
  keywords.any (fun kw => pyIn (pyLower kw) text)

/-- The `paper_data` dict built for one retained preprint-server item,
wrapped as `BiomedPaper(paper_data, source=server)`. -/
def mkBiorxivPaper (server : String) (item : BiorxivItem) : BiomedPaper :=
  { data :=
      { title := item.title
        abstract := item.abstract
        authors := .str item.authors
        doi := item.doi
        pmid := none
        date := item.date
        journal := server
        affiliations_raw :=
          .list (if item.author_corresponding_institution ≠ "" then
                   [item.author_corresponding_institution]
                 else [])
        pdf_url := "" }
    source := server }

/-- The `for item in collection` loop of `fetch_biorxiv_papers`: apply
the category filter (when categories were supplied), then the keyword
filter (when keywords were supplied), append a `BiomedPaper` for each
surviving item, and stop as soon as `max_results` papers have been
accumulated. -/
def biorxivProcessCollection (server : String) (categories keywords : List String)
    (max_results : Nat) (papers : List BiomedPaper) :
    List BiorxivItem → List BiomedPaper
  | [] => papers
  | item :: rest =>
    if !categories.isEmpty && !biorxivCategoryKeep categories item then
      biorxivProcessCollection server categories keywords max_results papers rest
    else if !keywords.isEmpty && !biorxivKeywordKeep keywords item then
      biorxivProcessCollection server categories keywords max_results papers rest
    else
      let papers2 := papers ++ [mkBiorxivPaper server item]
      if max_results ≤ papers2.length then papers2
      else biorxivProcessCollection server categories keywords max_results papers2 rest

/-- The `while len(papers) < max_results` pagination loop of
`fetch_biorxiv_papers`.  `server_resp cursor` is the round-trip for one
page (`none` = transport failure, caught by the source's `try/except`
and answered with `break`).  Pages advance the cursor by 100; the loop
also stops on an empty `collection` or once the cursor reaches the
server-reported total.  `fuel` bounds the recursion. -/
def fetchBiorxivLoop (server_resp : Nat → Option BiorxivResponse) (server : String)
    (categories keywords : List String) (max_results : Nat) :
    Nat → Nat → List BiomedPaper → List BiomedPaper
  | 0, _, papers => papers
  | fuel + 1, cursor, papers =>
    if max_results ≤ papers.length then papers
    else
      match server_resp cursor with
      | none => papers
      | some pageData =>
        if pageData.collection.isEmpty then papers
        else
          let papers2 := biorxivProcessCollection server categories keywords
            max_results papers pageData.collection
          if pageData.total ≤ cursor + 100 then papers2
          else fetchBiorxivLoop server_resp server categories keywords max_results
            fuel (cursor + 100) papers2

/-- `fetch_biorxiv_papers`: run the pagination loop from cursor 0 with
no papers accumulated. -/
def fetch_biorxiv_papers (server_resp : Nat → Option BiorxivResponse) (server : String)
    (categories keywords : List String) (max_results : Nat) (fuel : Nat) :
    List BiomedPaper :=
  fetchBiorxivLoop server_resp server categories keywords max_results fuel 0 []

/-! ## PubMed fetcher (`fetch_pubmed_papers`, `_parse_pubmed_xml`)

A `PubmedArticle` models one `<PubmedArticle>` element after XML
navigation: each `Option String` is the text content of an optional
sub-element (`none` = element absent); `abstractTexts` holds each
`<AbstractText>` element's `Label` attribute (`""` when absent) and raw
text content; `articleIds` holds each `<ArticleId>`'s `IdType`
attribute and optional text. -/

/-- One typed `<ArticleId>` element. -/
structure PubmedArticleId where
  IdType : String
  text : Option String
deriving DecidableEq, Repr

/-- One `<AbstractText>` segment: `Label` attribute and text content. -/
structure PubmedAbstractPart where
  Label : String
  text : String
deriving DecidableEq, Repr

/-- One `<Author>` element: optional `LastName` and `ForeName`. -/
structure PubmedAuthor where
  LastName : Option String
  ForeName : Option String
deriving DecidableEq, Repr

/-- One `<PubmedArticle>` element, at the granularity the parser reads. -/
structure PubmedArticle where
  PMID : Option String
  ArticleTitle : Option String
  abstractTexts : List PubmedAbstractPart
  authors : List PubmedAuthor
  articleIds : List PubmedArticleId
  journalTitle : Option String
  pubYear : Option String
  pubMonth : Option String
  pubDay : Option String
  affiliationTexts : List (Option String)
deriving DecidableEq, Repr

/-- `_get_text`: `""` for an absent element, else its text content
stripped. -/
def getText : Option String → String
  | none => ""
  | some s => pyStrip s

/-- Title extraction of `_parse_pubmed_xml`. -/
def pubmedTitle (a : PubmedArticle) : String := getText a.ArticleTitle

/-- Abstract assembly of `_parse_pubmed_xml`: each segment rendered as
`"Label: text"` when labelled, plain text otherwise, segments joined by
one space. -/
def pubmedAbstract (a : PubmedArticle) : String :=
  joinSep " "
    (a.abstractTexts.map (fun part =>
      if part.Label ≠ "" then part.Label ++ ": " ++ pyStrip part.text
      else pyStrip part.text))

/-- Author extraction: `"Fore Last"` when both names are present, the
last name alone when only it is, nothing otherwise. -/
def pubmedAuthors (a : PubmedArticle) : List String :=
  a.authors.filterMap (fun au =>
    match au.LastName, au.ForeName with
    | some l, some f => some (f ++ " " ++ l)
    | some l, none => some l
    | none, _ => none)

/-- The `for id_el in findall(ArticleId) ... break` loops: text of the
first identifier whose `IdType` matches, `""` when its text is null or
no identifier matches. -/
def firstArticleIdOfType (ids : List PubmedArticleId) (t : String) : String :=
  match ids with
  | [] => ""
  | i :: rest => if i.IdType = t then i.text.getD "" else firstArticleIdOfType rest t

/-- Date assembly: present components of year, month, day joined by
`"-"` in that order. -/
def pubmedDate (a : PubmedArticle) : String :=
  joinSep "-" ([a.pubYear, a.pubMonth, a.pubDay].filterMap id)

/-- Affiliation extraction: each `<Affiliation>` with truthy text
contributes its stripped text. -/
def pubmedAffiliations (a : PubmedArticle) : List String :=
  a.affiliationTexts.filterMap (fun t =>
    match t with
    | some s => if s ≠ "" then some (pyStrip s) else none
    | none => none)

/-- PDF link derivation of `_parse_pubmed_xml`: a PMC identifier gives
the direct PMC link, else a DOI gives the resolver link, else `""`. -/
def pubmedPdfUrl (a : PubmedArticle) : String :=
  let pmc_id := firstArticleIdOfType a.articleIds "pmc"
  let doi := firstArticleIdOfType a.articleIds "doi"
  if pmc_id ≠ "" then
    "https://www.ncbi.nlm.nih.gov/pmc/articles/" ++ pmc_id ++ "/pdf/"
  else if doi ≠ "" then "https://doi.org/" ++ doi
  else ""

/-- The `paper_data` dict built for one PubMed article. -/
def buildPubmedPaper (a : PubmedArticle) : BiomedPaper :=
  { data :=
      { title := pubmedTitle a
        abstract := pubmedAbstract a
        authors := .list (pubmedAuthors a)
        doi := firstArticleIdOfType a.articleIds "doi"
        pmid := some (a.PMID.getD "")
        date := pubmedDate a
        journal := a.journalTitle.getD ""
        affiliations_raw := .list (pubmedAffiliations a)
        pdf_url := pubmedPdfUrl a }
    source := "pubmed" }

/-- Per-article body of `_parse_pubmed_xml`: the
`if not title or not abstract: continue` gate, then construction. -/
def parsePubmedArticle (a : PubmedArticle) : Option BiomedPaper :=
  if pubmedTitle a = "" ∨ pubmedAbstract a = "" then none
  else some (buildPubmedPaper a)

/-- `_parse_pubmed_xml` over the article elements of one response. -/
def parse_pubmed_xml (articles : List PubmedArticle) : List BiomedPaper :=
  articles.filterMap parsePubmedArticle

/-- The batching `for i in range(0, len(pmids), 50)`: split the PMID
list into consecutive chunks of 50. -/
def chunk50 (l : List String) : List (List String) :=
  if h : l = [] then []
  else l.take 50 :: chunk50 (l.drop 50)
termination_by l.length
decreasing_by
  have hpos : 0 < l.length := List.length_pos.mpr h
  simp only [List.length_drop]
  omega

/-- `fetch_pubmed_papers`.  `search_resp` is the outcome of the search
round-trip (`none` = transport failure, answered with `return []`;
`some pmids` = the `idlist`).  `fetch_resp batch` is the detail fetch
for one batch (`none` = transport failure, answered with `continue`,
skipping only that batch). -/
def fetch_pubmed_papers (search_resp : Option (List String))
    (fetch_resp : List String → Option (List PubmedArticle)) : List BiomedPaper :=
  match search_resp with
  | none => []
  | some pmids =>
    if pmids.isEmpty then []
    else
      ((chunk50 pmids).map (fun batch =>
        match fetch_resp batch with
        | none => []
        | some arts => parse_pubmed_xml arts)).flatten

/-! ## Aggregator deduplication (`fetch_all_biomed_papers`) -/

/-- Dedup key of `fetch_all_biomed_papers`: the DOI when non-empty,
else the lower-cased, stripped title. -/
def dedupKey (p : BiomedPaper) : String :=
  if p.doi ≠ "" then p.doi else pyStrip (pyLower p.title)

/-- The `seen_dois` loop of `fetch_all_biomed_papers`: keep each paper
whose key has not been seen, recording kept keys. -/
def dedupPapersAux (seen : List String) : List BiomedPaper → List BiomedPaper
  | [] => []
  | p :: rest =>
    let key := dedupKey p
    if key ∈ seen then dedupPapersAux seen rest
    else p :: dedupPapersAux (key :: seen) rest

/-- Deduplication stage of `fetch_all_biomed_papers` (applied to the
concatenation of the per-source fetch results, in fetch order). -/
def dedup_papers (all_papers : List BiomedPaper) : List BiomedPaper :=
  dedupPapersAux [] all_papers

/-! ## Lemmas about the aggregator deduplication -/

/-- The dedup survivors form a sublist of the input (concatenation order
is preserved). -/
lemma dedupPapersAux_sublist (l : List BiomedPaper) :
    ∀ seen, List.Sublist (dedupPapersAux seen l) l := by
  induction l with
  | nil => intro seen; simp [dedupPapersAux]
  | cons p rest ih =>
    intro seen
    by_cases h : dedupKey p ∈ seen
    · simpa [dedupPapersAux, h] using List.Sublist.cons p (ih seen)
    · simpa [dedupPapersAux, h] using List.Sublist.cons₂ p (ih (dedupKey p :: seen))

/-- Keys of the dedup survivors are distinct and avoid the seen set. -/
lemma dedupPapersAux_keys_nodup (l : List BiomedPaper) :
    ∀ seen, ((dedupPapersAux seen l).map dedupKey).Nodup ∧
      ∀ k ∈ (dedupPapersAux seen l).map dedupKey, k ∉ seen := by
  induction l with
  | nil => intro seen; simp [dedupPapersAux]
  | cons p rest ih =>
    intro seen
    by_cases h : dedupKey p ∈ seen
    · simpa [dedupPapersAux, h] using ih seen
    · have ihr := ih (dedupKey p :: seen)
      simp only [dedupPapersAux, h, and_false, not_false_iff, if_true, if_neg,
        List.map_cons, List.nodup_cons, List.mem_cons]
      refine ⟨⟨?_, ihr.1⟩, ?_⟩
      · intro hmem
        exact (ihr.2 _ hmem) (List.mem_cons_self _ _)
      · rintro k (rfl | hk)
        · exact h
        · intro hks
          exact (ihr.2 _ hk) (List.mem_cons_of_mem _ hks)

/-- Every input paper's key survives (possibly via an earlier paper or
the seen set). -/
lemma dedupPapersAux_key_covered (l : List BiomedPaper) :
    ∀ seen p, p ∈ l →
      dedupKey p ∈ seen ∨ dedupKey p ∈ (dedupPapersAux seen l).map dedupKey := by
  induction l with
  | nil => intro seen p hp; cases hp
  | cons q rest ih =>
    intro seen p hp
    by_cases h : dedupKey q ∈ seen
    · rcases List.mem_cons.mp hp with rfl | hp'
      · left; exact h
      · simpa [dedupPapersAux, h] using ih seen p hp'
    · rcases List.mem_cons.mp hp with rfl | hp'
      · right; simp [dedupPapersAux, h]
      · rcases ih (dedupKey q :: seen) p hp' with hmem | hmem
        · rcases List.mem_cons.mp hmem with heq | hseen
          · right; simp [dedupPapersAux, h, heq]
          · left; exact hseen
        · right; simp [dedupPapersAux, h, hmem]

/-- When all keys are fresh and pairwise distinct, dedup is the
identity. -/
lemma dedupPapersAux_of_nodup (l : List BiomedPaper) :
    ∀ seen, (∀ p ∈ l, dedupKey p ∉ seen) → (l.map dedupKey).Nodup →
      dedupPapersAux seen l = l := by
  induction l with
  | nil => intro seen _ _; simp [dedupPapersAux]
  | cons p rest ih =>
    intro seen hfresh hnodup
    have hp : dedupKey p ∉ seen := hfresh p (List.mem_cons_self _ _)
    simp only [List.map_cons, List.nodup_cons] at hnodup
    have hrest : ∀ q ∈ rest, dedupKey q ∉ dedupKey p :: seen := by
      intro q hq
      simp only [List.mem_cons, not_or]
      constructor
      · intro heq
        exact hnodup.1 (heq ▸ List.mem_map_of_mem dedupKey hq)
      · exact hfresh q (List.mem_cons_of_mem _ hq)
    simp [dedupPapersAux, hp, ih (dedupKey p :: seen) hrest hnodup.2]

/-- Concrete paper fixture used by witness instances. -/
def samplePaper (title doi : String) : BiomedPaper :=
  { data :=
      { title := title
        abstract := "some abstract"
        authors := .list []
        doi := doi
        pmid := none
        date := ""
        journal := "j"
        affiliations_raw := .list []
        pdf_url := "" }
    source := "biorxiv" }

/-- C2: the aggregator dedup keys a paper by its DOI when non-empty and
by its lower-cased stripped title otherwise, keeps only the first paper
per key preserving concatenation order; two papers with the same
non-empty DOI collapse to the first one, and papers with pairwise
distinct non-empty DOIs all survive. -/
theorem C2_dedup_first_seen :
    (∀ p : BiomedPaper,
       dedupKey p = if p.doi ≠ "" then p.doi else pyStrip (pyLower p.title)) ∧
    (∀ l, List.Sublist (dedup_papers l) l) ∧
    (∀ l, ((dedup_papers l).map dedupKey).Nodup) ∧
    (∀ l p, p ∈ l → dedupKey p ∈ (dedup_papers l).map dedupKey) ∧
    (∀ p q : BiomedPaper, p.doi ≠ "" → q.doi = p.doi → dedup_papers [p, q] = [p]) ∧
    (∀ l, (∀ p ∈ l, p.doi ≠ "") → (l.map BiomedPaper.doi).Nodup →
       (dedup_papers l).length = l.length) := by
  refine ⟨fun p => rfl, fun l => dedupPapersAux_sublist l [],
    fun l => (dedupPapersAux_keys_nodup l []).1, ?_, ?_, ?_⟩
  · intro l p hp
    rcases dedupPapersAux_key_covered l [] p hp with h | h
    · cases h
    · exact h
  · intro p q hp hq
    have hkp : dedupKey p = p.doi := by simp [dedupKey, hp]
    have hkq : dedupKey q = p.doi := by simp [dedupKey, hq, hp]
    simp [dedup_papers, dedupPapersAux, hkp, hkq]
  · intro l hall hnodup
    have hmapeq : l.map dedupKey = l.map BiomedPaper.doi :=
      List.map_congr_left (fun p hp => by simp [dedupKey, hall p hp])
    have hid := dedupPapersAux_of_nodup l [] (by simp) (by rw [hmapeq]; exact hnodup)
    rw [dedup_papers, hid]

/-- Witness for C2 at concrete papers: identical DOIs collapse to the
first; distinct DOIs both survive. -/
theorem C2_dedup_first_seen_witness :
    dedup_papers [samplePaper "A" "10.1/x", samplePaper "B" "10.1/x"] =
      [samplePaper "A" "10.1/x"] ∧
    (dedup_papers [samplePaper "A" "10.1/x", samplePaper "C" "10.2/y"]).length = 2 :=
  ⟨C2_dedup_first_seen.2.2.2.2.1 _ _ (by decide) (by decide),
   C2_dedup_first_seen.2.2.2.2.2 _ (by decide) (by decide)⟩

/-- C6: two papers with empty DOI whose titles agree after lower-casing
and stripping collapse to the first-encountered one. -/
theorem C6_fallback_dedup_key :
    ∀ p q : BiomedPaper, p.doi = "" → q.doi = "" →
      pyStrip (pyLower p.title) = pyStrip (pyLower q.title) →
      dedup_papers [p, q] = [p] := by
  intro p q hp hq ht
  have hkp : dedupKey p = pyStrip (pyLower p.title) := by simp [dedupKey, hp]
  have hkq : dedupKey q = pyStrip (pyLower p.title) := by simp [dedupKey, hq, ← ht]
  simp [dedup_papers, dedupPapersAux, hkp, hkq]

/-- Witness for C6: titles differing only by case and surrounding
whitespace collapse. -/
theorem C6_fallback_dedup_key_witness :
    dedup_papers [samplePaper "  The VACCINE Study" "", samplePaper "the vaccine study  " ""] =
      [samplePaper "  The VACCINE Study" ""] :=
  C6_fallback_dedup_key _ _ (by decide) (by decide) (by decide)

/-! ## Lemmas about string concatenation and the paper properties -/

/-- A concatenation whose left-left component is a non-empty string is
non-empty. -/
lemma append_append_ne_empty (a b c : String) (ha : a.data ≠ []) :
    a ++ b ++ c ≠ "" := by
  intro h
  have hd := congrArg String.data h
  simp only [String.data_append] at hd
  rcases List.append_eq_nil.mp hd with ⟨h1, _⟩
  rcases List.append_eq_nil.mp h1 with ⟨h2, _⟩
  exact ha h2

/-- C9: a bioRxiv/medRxiv paper whose stored pdf link is empty derives
its pdf link from the server's content-URL template with the DOI
interpolated, and that link is non-empty (the DOI may be empty). -/
theorem C9_preprint_pdf_url :
    ∀ p : BiomedPaper, p.data.pdf_url = "" →
      (p.source = "biorxiv" →
        p.pdf_url = "https://www.biorxiv.org/content/" ++ p.doi ++ "v1.full.pdf" ∧
        p.pdf_url ≠ "") ∧
      (p.source = "medrxiv" →
        p.pdf_url = "https://www.medrxiv.org/content/" ++ p.doi ++ "v1.full.pdf" ∧
        p.pdf_url ≠ "") := by
  intro p h
  constructor
  · intro hs
    have hurl : p.pdf_url =
        "https://www.biorxiv.org/content/" ++ p.doi ++ "v1.full.pdf" := by
      simp [BiomedPaper.pdf_url, BiomedPaper.doi, h, hs]
    refine ⟨hurl, ?_⟩
    rw [hurl]
    exact append_append_ne_empty _ _ _ (by decide)
  · intro hs
    by_cases hb : p.source = "biorxiv"
    · exact absurd (hs.symm.trans hb) (by decide)
    have hurl : p.pdf_url =
        "https://www.medrxiv.org/content/" ++ p.doi ++ "v1.full.pdf" := by
      simp [BiomedPaper.pdf_url, BiomedPaper.doi, h, hs, hb]
    refine ⟨hurl, ?_⟩
    rw [hurl]
    exact append_append_ne_empty _ _ _ (by decide)

/-- Concrete fixture: a medRxiv paper with empty DOI and no stored pdf
link. -/
def sampleMedrxivPaper : BiomedPaper :=
  { data :=
      { title := "t"
        abstract := "a"
        authors := .str ""
        doi := ""
        pmid := none
        date := ""
        journal := "medrxiv"
        affiliations_raw := .list []
        pdf_url := "" }
    source := "medrxiv" }

/-- Witness for C9: even with an empty DOI the derived link is the
template and is non-empty. -/
theorem C9_preprint_pdf_url_witness :
    sampleMedrxivPaper.pdf_url =
      "https://www.medrxiv.org/content/" ++ sampleMedrxivPaper.doi ++ "v1.full.pdf" ∧
    sampleMedrxivPaper.pdf_url ≠ "" :=
  (C9_preprint_pdf_url sampleMedrxivPaper rfl).2 rfl

/-- The affiliation-cleaning loop eliminates everything when every raw
entry strips to the empty string. -/
lemma affilDedupLoop_all_strip_empty (raw : List String) :
    ∀ seen, (∀ a ∈ raw, pyStrip a = "") → affilDedupLoop seen raw = [] := by
  induction raw with
  | nil => intro seen _; simp [affilDedupLoop]
  | cons a rest ih =>
    intro seen hall
    have ha : pyStrip a = "" := hall a (List.mem_cons_self _ _)
    simp [affilDedupLoop, ha, ih seen (fun b hb => hall b (List.mem_cons_of_mem _ hb))]

/-- C10: an empty raw affiliation list, a list whose entries are all
empty after stripping, and a blank raw string all make `affiliations`
return `None`; a raw string with non-blank content yields the singleton
of its stripped form. -/
theorem C10_affiliations_degenerate :
    (∀ p : BiomedPaper, p.data.affiliations_raw = .list [] → p.affiliations = none) ∧
    (∀ (p : BiomedPaper) raw, p.data.affiliations_raw = .list raw →
      (∀ a ∈ raw, pyStrip a = "") → p.affiliations = none) ∧
    (∀ (p : BiomedPaper) s, p.data.affiliations_raw = .str s → pyStrip s = "" →
      p.affiliations = none) ∧
    (∀ (p : BiomedPaper) s, p.data.affiliations_raw = .str s → pyStrip s ≠ "" →
      p.affiliations = some [pyStrip s]) := by
  refine ⟨?_, ?_, ?_, ?_⟩
  · intro p h
    simp [BiomedPaper.affiliations, h]
  · intro p raw h hall
    have hloop := affilDedupLoop_all_strip_empty raw [] hall
    by_cases hraw : raw.isEmpty
    · simp [BiomedPaper.affiliations, h, hraw]
    · simp [BiomedPaper.affiliations, h, hraw, hloop]
  · intro p s h hs
    simp [BiomedPaper.affiliations, h, hs]
  · intro p s h hs
    simp [BiomedPaper.affiliations, h, hs]

/-- Concrete fixture: a paper with the given raw affiliation value. -/
def paperWithAffil (r : PyStrOrList) : BiomedPaper :=
  { data :=
      { title := "t"
        abstract := "a"
        authors := .list []
        doi := ""
        pmid := none
        date := ""
        journal := "j"
        affiliations_raw := r
        pdf_url := "" }
    source := "pubmed" }

/-- Witness for C10: whitespace-only list entries give `None`; a
non-blank raw string gives the stripped singleton. -/
theorem C10_affiliations_degenerate_witness :
    (paperWithAffil (.list ["  ", ""])).affiliations = none ∧
    (paperWithAffil (.str "  MIT ")).affiliations = some ["MIT"] :=
  ⟨C10_affiliations_degenerate.2.1 _ ["  ", ""] rfl (by decide),
   (C10_affiliations_degenerate.2.2.2 _ "  MIT " rfl (by decide)).trans (by decide)⟩

/-! ## C8: affiliations derivation and caching -/

/-- Generic first-occurrence deduplication keeping encounter order
(`seen` = values already kept). -/
def dedupKeepFirst (seen : List String) : List String → List String
  | [] => []
  | x :: xs =>
    if x ∈ seen then dedupKeepFirst seen xs
    else x :: dedupKeepFirst (x :: seen) xs

/-- The affiliation-cleaning loop equals: strip every entry, drop the
entries that are empty after stripping, then deduplicate keeping first
occurrences. -/
lemma affilDedupLoop_eq_dedupKeepFirst (raw : List String) :
    ∀ seen, affilDedupLoop seen raw =
      dedupKeepFirst seen ((raw.map pyStrip).filter (fun c => c ≠ "")) := by
  induction raw with
  | nil => intro seen; simp [affilDedupLoop, dedupKeepFirst]
  | cons a rest ih =>
    intro seen
    by_cases hc : pyStrip a = ""
    · simp [affilDedupLoop, List.filter_cons, hc, ih seen]
    · by_cases hm : pyStrip a ∈ seen
      · simp [affilDedupLoop, dedupKeepFirst, List.filter_cons, hc, hm, ih seen]
      · simp [affilDedupLoop, dedupKeepFirst, List.filter_cons, hc, hm,
          ih (pyStrip a :: seen)]

/-- Derivation following the words of the claim only: trim each raw
entry and remove duplicates preserving first-seen order (no dropping of
entries that are empty after trimming). -/
def affiliationsClaimC8 (raw : List String) : List String :=
  dedupKeepFirst [] (raw.map pyStrip)

/-- C8 counterexample: on raw input `["  ", "MIT"]` the code drops the
entry that is blank after trimming and returns `["MIT"]`, while the
claimed trim-then-dedup derivation would keep `""` and give
`["", "MIT"]`. -/
theorem C8_counterexample :
    (paperWithAffil (.list ["  ", "MIT"])).affiliations = some ["MIT"] ∧
    affiliationsClaimC8 ["  ", "MIT"] = ["", "MIT"] ∧
    (paperWithAffil (.list ["  ", "MIT"])).affiliations ≠
      some (affiliationsClaimC8 ["  ", "MIT"]) := by decide

/-- C8 (amended): `affiliations` strips each raw entry, drops entries
empty after stripping, deduplicates preserving first-seen order
(returning `None` when nothing remains); `["MIT", "Harvard", "MIT"]`
yields `["MIT", "Harvard"]`; the value is computed on first access,
stored, and repeated accesses return the stored value unchanged. -/
theorem C8_affiliations_amended :
    (∀ (p : BiomedPaper) raw, p.data.affiliations_raw = .list raw →
      p.affiliations =
        (if (dedupKeepFirst [] ((raw.map pyStrip).filter (fun c => c ≠ ""))).isEmpty
         then none
         else some (dedupKeepFirst [] ((raw.map pyStrip).filter (fun c => c ≠ ""))))) ∧
    ((paperWithAffil (.list ["MIT", "Harvard", "MIT"])).affiliations =
      some ["MIT", "Harvard"]) ∧
    (∀ o : BiomedPaperObj, o.affiliationsCache = none →
      o.getAffiliations.1 = o.paper.affiliations ∧
      o.getAffiliations.2.affiliationsCache = some o.paper.affiliations) ∧
    (∀ o : BiomedPaperObj,
      (o.getAffiliations.2.getAffiliations).1 = o.getAffiliations.1 ∧
      (o.getAffiliations.2.getAffiliations).2 = o.getAffiliations.2) := by
  refine ⟨?_, by decide, ?_, ?_⟩
  · intro p raw h
    cases raw with
    | nil => simp [BiomedPaper.affiliations, h, dedupKeepFirst]
    | cons a rest =>
      simp only [BiomedPaper.affiliations, h, List.isEmpty_cons, if_neg,
        Bool.false_eq_true, not_false_iff, affilDedupLoop_eq_dedupKeepFirst]
  · intro o h
    simp [BiomedPaperObj.getAffiliations, h]
  · intro o
    match hcache : o.affiliationsCache with
    | some v => simp [BiomedPaperObj.getAffiliations, hcache]
    | none => simp [BiomedPaperObj.getAffiliations, hcache]

/-- Witness for C8 (amended) at concrete inputs: the list-case formula
and the first-access cache fill. -/
theorem C8_affiliations_amended_witness :
    (paperWithAffil (.list ["MIT", "Harvard", "MIT"])).affiliations =
      (if (dedupKeepFirst []
            (((["MIT", "Harvard", "MIT"] : List String).map pyStrip).filter
              (fun c => c ≠ ""))).isEmpty
       then none
       else some (dedupKeepFirst []
            (((["MIT", "Harvard", "MIT"] : List String).map pyStrip).filter
              (fun c => c ≠ "")))) ∧
    ({ paper := paperWithAffil (.list ["MIT"]), affiliationsCache := none } :
        BiomedPaperObj).getAffiliations.1 = (paperWithAffil (.list ["MIT"])).affiliations :=
  ⟨C8_affiliations_amended.1 _ _ rfl,
   (C8_affiliations_amended.2.2.1
     { paper := paperWithAffil (.list ["MIT"]), affiliationsCache := none } rfl).1⟩

/-! ## C7: PubMed link derivation -/

/-- `firstArticleIdOfType` returns the first identifier of the matching
type when earlier identifiers all have other types. -/
lemma firstArticleIdOfType_first (t : String) (x : PubmedArticleId)
    (post : List PubmedArticleId) :
    ∀ pre, (∀ y ∈ pre, y.IdType ≠ t) → x.IdType = t →
      firstArticleIdOfType (pre ++ x :: post) t = x.text.getD "" := by
  intro pre
  induction pre with
  | nil =>
    intro _ hx
    simp [firstArticleIdOfType, hx]
  | cons y ys ih =>
    intro hall hx
    have hy : ¬ y.IdType = t := hall y (List.mem_cons_self _ _)
    have htail := ih (fun z hz => hall z (List.mem_cons_of_mem _ hz)) hx
    simpa [firstArticleIdOfType, hy] using htail

/-- C7: the parsed PubMed pdf link is the PMC full-text URL when a PMC
identifier (first of that type) is non-empty, else the DOI-resolver URL
when a DOI is present, else empty; the constructed Paper stores exactly
this link, and the first identifier of the matching type wins. -/
theorem C7_pubmed_link_derivation :
    (∀ a : PubmedArticle,
      (firstArticleIdOfType a.articleIds "pmc" ≠ "" →
        pubmedPdfUrl a = "https://www.ncbi.nlm.nih.gov/pmc/articles/" ++
          firstArticleIdOfType a.articleIds "pmc" ++ "/pdf/") ∧
      (firstArticleIdOfType a.articleIds "pmc" = "" →
        firstArticleIdOfType a.articleIds "doi" ≠ "" →
        pubmedPdfUrl a = "https://doi.org/" ++ firstArticleIdOfType a.articleIds "doi") ∧
      (firstArticleIdOfType a.articleIds "pmc" = "" →
        firstArticleIdOfType a.articleIds "doi" = "" → pubmedPdfUrl a = "") ∧
      (∀ p, parsePubmedArticle a = some p → p.data.pdf_url = pubmedPdfUrl a)) ∧
    (∀ (pre post : List PubmedArticleId) (x : PubmedArticleId) (t : String),
      (∀ y ∈ pre, y.IdType ≠ t) → x.IdType = t →
      firstArticleIdOfType (pre ++ x :: post) t = x.text.getD "") := by
  constructor
  · intro a
    refine ⟨?_, ?_, ?_, ?_⟩
    · intro hpmc
      simp [pubmedPdfUrl, hpmc]
    · intro hpmc hdoi
      simp [pubmedPdfUrl, hpmc, hdoi]
    · intro hpmc hdoi
      simp [pubmedPdfUrl, hpmc, hdoi]
    · intro p hp
      unfold parsePubmedArticle at hp
      split at hp
      · cases hp
      · cases hp
        rfl
  · intro pre post x t hall hx
    exact firstArticleIdOfType_first t x post pre hall hx

/-- Concrete fixture: a PubMed article carrying both a DOI and a PMC
identifier. -/
def samplePubmedArticle : PubmedArticle :=
  { PMID := some "123"
    ArticleTitle := some "A title"
    abstractTexts := [{ Label := "", text := "An abstract" }]
    authors := []
    articleIds := [{ IdType := "doi", text := some "10.1/x" },
                   { IdType := "pmc", text := some "PMC77" }]
    journalTitle := some "J"
    pubYear := some "2024"
    pubMonth := none
    pubDay := none
    affiliationTexts := [] }

/-- Witness for C7: with a PMC identifier present the link is the PMC
URL, and the first identifier of type `doi` wins. -/
theorem C7_pubmed_link_derivation_witness :
    pubmedPdfUrl samplePubmedArticle =
      "https://www.ncbi.nlm.nih.gov/pmc/articles/" ++
        firstArticleIdOfType samplePubmedArticle.articleIds "pmc" ++ "/pdf/" ∧
    firstArticleIdOfType ([] ++ { IdType := "doi", text := some "10.1/x" } ::
        [{ IdType := "pmc", text := some "PMC77" }]) "doi" =
      (some "10.1/x").getD "" :=
  ⟨(C7_pubmed_link_derivation.1 samplePubmedArticle).1 (by decide),
   C7_pubmed_link_derivation.2 [] [{ IdType := "pmc", text := some "PMC77" }]
     { IdType := "doi", text := some "10.1/x" } "doi" (by decide) rfl⟩

/-! ## C5: filter composition in the preprint-server fetcher -/

/-- C5: with both filters supplied, the collection loop retains exactly
the items passing both the category filter and the keyword filter, in
order, truncated by the remaining `max_results` capacity (so filtering
happens before an item counts toward the cap). -/
theorem C5_filter_composition :
    ∀ (server : String) (categories keywords : List String) (max_results : Nat)
      (papers : List BiomedPaper) (items : List BiorxivItem),
      categories ≠ [] → keywords ≠ [] → papers.length < max_results →
      biorxivProcessCollection server categories keywords max_results papers items =
        papers ++ ((items.filter (fun it =>
            biorxivCategoryKeep categories it && biorxivKeywordKeep keywords it)).map
          (mkBiorxivPaper server)).take (max_results - papers.length) := by
  intro server categories keywords max_results papers items hc hk
  have hcne : categories.isEmpty = false := by
    simpa [List.isEmpty_iff] using hc
  have hkne : keywords.isEmpty = false := by
    simpa [List.isEmpty_iff] using hk
  induction items generalizing papers with
  | nil => intro _; simp [biorxivProcessCollection]
  | cons item rest ih =>
    intro hlen
    cases hcat : biorxivCategoryKeep categories item with
    | false =>
      simp [biorxivProcessCollection, hcne, hcat, List.filter_cons, ih papers hlen]
    | true =>
      cases hkw : biorxivKeywordKeep keywords item with
      | false =>
        simp [biorxivProcessCollection, hcne, hkne, hcat, hkw, List.filter_cons,
          ih papers hlen]
      | true =>
        by_cases hcap : max_results ≤ (papers ++ [mkBiorxivPaper server item]).length
        · have hmr : max_results - papers.length = 1 := by
            simp only [List.length_append, List.length_cons, List.length_nil] at hcap
            omega
          simp [biorxivProcessCollection, hcne, hkne, hcat, hkw, hcap,
            List.filter_cons, hmr]
          intro h2
          have hle : max_results ≤ papers.length + 1 := by
            simpa using hcap
          exact absurd h2 (by omega)
        · have hlen2 : (papers ++ [mkBiorxivPaper server item]).length < max_results := by
            simp only [not_le] at hcap
            exact hcap
          have ihr := ih (papers ++ [mkBiorxivPaper server item]) hlen2
          have harith : max_results - papers.length =
              (max_results - (papers.length + 1)) + 1 := by
            simp only [List.length_append, List.length_cons, List.length_nil] at hcap
            omega
          simp only [biorxivProcessCollection, hcne, hcat, hkw, Bool.not_false,
            Bool.not_true, Bool.and_false, Bool.and_true, Bool.false_and,
            Bool.true_and, if_false, if_neg hcap, ihr, List.filter_cons, hkne]
          rw [harith]
          simp [List.take_succ_cons, List.length_append, List.append_assoc]

/-- Concrete fixtures for the filter-composition witness: an item
matching only the category filter, one matching only the keyword
filter, and one matching both. -/
def c5ItemCatOnly : BiorxivItem :=
  { category := "Immunology", title := "unrelated work", abstract := "nothing here"
    authors := "", doi := "", date := "", author_corresponding_institution := "" }

/-- Item matching only the keyword filter. -/
def c5ItemKwOnly : BiorxivItem :=
  { category := "neuroscience", title := "vaccine effects", abstract := "brain"
    authors := "", doi := "", date := "", author_corresponding_institution := "" }

/-- Item matching both filters. -/
def c5ItemBoth : BiorxivItem :=
  { category := "Immunology", title := "A vaccine trial", abstract := "results"
    authors := "", doi := "", date := "", author_corresponding_institution := "" }

/-- Witness for C5 at concrete filters `["immunology"]` and
`["vaccine"]`. -/
theorem C5_filter_composition_witness :
    biorxivProcessCollection "biorxiv" ["immunology"] ["vaccine"] 3 []
        [c5ItemCatOnly, c5ItemKwOnly, c5ItemBoth] =
      [] ++ (([c5ItemCatOnly, c5ItemKwOnly, c5ItemBoth].filter (fun it =>
          biorxivCategoryKeep ["immunology"] it && biorxivKeywordKeep ["vaccine"] it)).map
        (mkBiorxivPaper "biorxiv")).take (3 - ([] : List BiomedPaper).length) :=
  C5_filter_composition "biorxiv" ["immunology"] ["vaccine"] 3 []
    [c5ItemCatOnly, c5ItemKwOnly, c5ItemBoth] (by decide) (by decide) (by decide)

/-! ## C4: pagination of the preprint-server fetcher -/

/-- The collection loop never pushes the accumulator beyond
`max_results` when entered below it. -/
lemma biorxivProcessCollection_length_le (server : String)
    (categories keywords : List String) (max_results : Nat)
    (items : List BiorxivItem) :
    ∀ papers : List BiomedPaper, papers.length < max_results →
      (biorxivProcessCollection server categories keywords max_results papers
        items).length ≤ max_results := by
  induction items with
  | nil => intro papers hlen; simpa [biorxivProcessCollection] using hlen.le
  | cons item rest ih =>
    intro papers hlen
    cases hb1 : (!categories.isEmpty && !biorxivCategoryKeep categories item) with
    | true => simpa [biorxivProcessCollection, hb1] using ih papers hlen
    | false =>
      cases hb2 : (!keywords.isEmpty && !biorxivKeywordKeep keywords item) with
      | true => simpa [biorxivProcessCollection, hb1, hb2] using ih papers hlen
      | false =>
        have hlen1 : (papers ++ [mkBiorxivPaper server item]).length = papers.length + 1 := by
          simp
        by_cases hcap : max_results ≤ papers.length + 1
        · simp [biorxivProcessCollection, hb1, hb2, hcap]
          omega
        · have hlen2 : (papers ++ [mkBiorxivPaper server item]).length < max_results := by
            omega
          simpa [biorxivProcessCollection, hb1, hb2, hcap] using
            ih (papers ++ [mkBiorxivPaper server item]) hlen2

/-- The pagination loop never returns more than `max_results` papers
when entered with at most `max_results` accumulated. -/
lemma fetchBiorxivLoop_length_le (server_resp : Nat → Option BiorxivResponse)
    (server : String) (categories keywords : List String) (max_results : Nat) :
    ∀ (fuel cursor : Nat) (papers : List BiomedPaper),
      papers.length ≤ max_results →
      (fetchBiorxivLoop server_resp server categories keywords max_results fuel
        cursor papers).length ≤ max_results := by
  intro fuel
  induction fuel with
  | zero => intro cursor papers h; simpa [fetchBiorxivLoop] using h
  | succ n ih =>
    intro cursor papers h
    by_cases hcap : max_results ≤ papers.length
    · simpa [fetchBiorxivLoop, hcap] using h
    · have hlt : papers.length < max_results := not_le.mp hcap
      match hresp : server_resp cursor with
      | none => simpa [fetchBiorxivLoop, hcap, hresp] using h
      | some resp =>
        by_cases hempty : resp.collection.isEmpty
        · simpa [fetchBiorxivLoop, hcap, hresp, hempty] using h
        · have hproc := biorxivProcessCollection_length_le server categories keywords
            max_results resp.collection papers hlt
          by_cases htot : resp.total ≤ cursor + 100
          · simpa [fetchBiorxivLoop, hcap, hresp, hempty, htot] using hproc
          · simpa [fetchBiorxivLoop, hcap, hresp, hempty, htot] using
              ih (cursor + 100)
                (biorxivProcessCollection server categories keywords max_results
                  papers resp.collection) hproc

/-- Concrete fixture: a qualifying preprint record. -/
def c4Item : BiorxivItem :=
  { category := "Immunology", title := "A vaccine study", abstract := "results"
    authors := "", doi := "", date := "", author_corresponding_institution := "" }

/-- Concrete fixture: a server holding 100 qualifying records, reported
total 100, served on the first page. -/
def c4Server : Nat → Option BiorxivResponse := fun cursor =>
  if cursor = 0 then some { collection := List.replicate 100 c4Item, total := 100 }
  else none

/-- C4: the fetch never returns more than `max_results` papers; the
pagination loop stops when the accumulated count has reached
`max_results`, when a page's collection is empty, or when the advanced
cursor (previous cursor plus the page size 100) reaches the reported
total, and otherwise continues at cursor + 100; with `max_results = 5`
against a source holding 100 qualifying records the fetch returns
exactly 5 papers. -/
theorem C4_pagination_termination :
    (∀ (server_resp : Nat → Option BiorxivResponse) (server : String)
       (categories keywords : List String) (max_results fuel : Nat),
       (fetch_biorxiv_papers server_resp server categories keywords max_results
         fuel).length ≤ max_results) ∧
    (∀ (server_resp : Nat → Option BiorxivResponse) (server : String)
       (categories keywords : List String) (max_results fuel cursor : Nat)
       (papers : List BiomedPaper),
       max_results ≤ papers.length →
       fetchBiorxivLoop server_resp server categories keywords max_results
         (fuel + 1) cursor papers = papers) ∧
    (∀ (server_resp : Nat → Option BiorxivResponse) (server : String)
       (categories keywords : List String) (max_results fuel cursor : Nat)
       (papers : List BiomedPaper) (resp : BiorxivResponse),
       papers.length < max_results → server_resp cursor = some resp →
       resp.collection = [] →
       fetchBiorxivLoop server_resp server categories keywords max_results
         (fuel + 1) cursor papers = papers) ∧
    (∀ (server_resp : Nat → Option BiorxivResponse) (server : String)
       (categories keywords : List String) (max_results fuel cursor : Nat)
       (papers : List BiomedPaper) (resp : BiorxivResponse),
       papers.length < max_results → server_resp cursor = some resp →
       resp.collection ≠ [] → resp.total ≤ cursor + 100 →
       fetchBiorxivLoop server_resp server categories keywords max_results
         (fuel + 1) cursor papers =
         biorxivProcessCollection server categories keywords max_results papers
           resp.collection) ∧
    (∀ (server_resp : Nat → Option BiorxivResponse) (server : String)
       (categories keywords : List String) (max_results fuel cursor : Nat)
       (papers : List BiomedPaper) (resp : BiorxivResponse),
       papers.length < max_results → server_resp cursor = some resp →
       resp.collection ≠ [] → ¬ resp.total ≤ cursor + 100 →
       fetchBiorxivLoop server_resp server categories keywords max_results
         (fuel + 1) cursor papers =
         fetchBiorxivLoop server_resp server categories keywords max_results fuel
           (cursor + 100)
           (biorxivProcessCollection server categories keywords max_results papers
             resp.collection)) ∧
    (fetch_biorxiv_papers c4Server "biorxiv" ["immunology"] ["vaccine"] 5 10).length = 5 := by
  refine ⟨?_, ?_, ?_, ?_, ?_, by decide⟩
  · intro server_resp server categories keywords max_results fuel
    exact fetchBiorxivLoop_length_le server_resp server categories keywords
      max_results fuel 0 [] (by simp)
  · intro server_resp server categories keywords max_results fuel cursor papers h
    simp [fetchBiorxivLoop, h]
  · intro server_resp server categories keywords max_results fuel cursor papers resp
      hlt hresp hcol
    simp [fetchBiorxivLoop, not_le.mpr hlt, hresp, hcol]
  · intro server_resp server categories keywords max_results fuel cursor papers resp
      hlt hresp hcol htot
    have hcol' : resp.collection.isEmpty = false := by
      simpa [List.isEmpty_iff] using hcol
    simp [fetchBiorxivLoop, not_le.mpr hlt, hresp, hcol', htot]
  · intro server_resp server categories keywords max_results fuel cursor papers resp
      hlt hresp hcol htot
    have hcol' : resp.collection.isEmpty = false := by
      simpa [List.isEmpty_iff] using hcol
    simp [fetchBiorxivLoop, not_le.mpr hlt, hresp, hcol', htot]

/-- Witness for C4 at concrete inputs: the cap-stop and empty-page-stop
clauses applied to a concrete loop state. -/
theorem C4_pagination_termination_witness :
    fetchBiorxivLoop c4Server "biorxiv" [] [] 0 3 0 [] = [] ∧
    fetchBiorxivLoop (fun _ => some { collection := [], total := 7 }) "biorxiv"
      [] [] 5 3 0 [] = [] :=
  ⟨C4_pagination_termination.2.1 c4Server "biorxiv" [] [] 0 2 0 [] (by decide),
   C4_pagination_termination.2.2.1 (fun _ => some { collection := [], total := 7 })
     "biorxiv" [] [] 5 2 0 [] { collection := [], total := 7 } (by decide) rfl rfl⟩

/-! ## C3: transport-failure resilience -/

/-- C3: a failed PubMed search round-trip yields the empty list; a
failed preprint-server page stops pagination but returns the papers
already accumulated; a failed PubMed detail batch contributes nothing
while every other batch is processed exactly as if the failed batch had
been empty. -/
theorem C3_transport_failure_resilience :
    (∀ fetch_resp : List String → Option (List PubmedArticle),
       fetch_pubmed_papers none fetch_resp = []) ∧
    (∀ (server_resp : Nat → Option BiorxivResponse) (server : String)
       (categories keywords : List String) (max_results fuel cursor : Nat)
       (papers : List BiomedPaper),
       server_resp cursor = none →
       fetchBiorxivLoop server_resp server categories keywords max_results
         (fuel + 1) cursor papers = papers) ∧
    (∀ (pmids : List String)
       (fetch_resp : List String → Option (List PubmedArticle))
       (batch : List String),
       fetch_resp batch = none →
       fetch_pubmed_papers (some pmids) fetch_resp =
         fetch_pubmed_papers (some pmids)
           (fun b => if b = batch then some [] else fetch_resp b)) := by
  refine ⟨fun _ => rfl, ?_, ?_⟩
  · intro server_resp server categories keywords max_results fuel cursor papers hresp
    by_cases hcap : max_results ≤ papers.length
    · simp [fetchBiorxivLoop, hcap]
    · simp [fetchBiorxivLoop, hcap, hresp]
  · intro pmids fetch_resp batch hb
    simp only [fetch_pubmed_papers]
    by_cases hp : pmids.isEmpty
    · simp [hp]
    · simp only [hp, Bool.false_eq_true, if_false]
      congr 1
      apply List.map_congr_left
      intro b _
      by_cases hbb : b = batch
      · subst hbb
        simp [hb, parse_pubmed_xml]
      · simp [hbb]

/-- Witness for C3: a server failing on the very first page makes the
loop return the (empty) accumulation, and a failed detail batch is
equivalent to an empty one. -/
theorem C3_transport_failure_resilience_witness :
    fetchBiorxivLoop (fun _ => none) "biorxiv" [] [] 5 4 0 [] = [] ∧
    fetch_pubmed_papers (some ["1"]) (fun _ => none) =
      fetch_pubmed_papers (some ["1"])
        (fun b => if b = ["1"] then some [] else none) :=
  ⟨C3_transport_failure_resilience.2.1 (fun _ => none) "biorxiv" [] [] 5 3 0 [] rfl,
   C3_transport_failure_resilience.2.2 ["1"] (fun _ => none) ["1"] rfl⟩

/-! ## C1: the required-field invariant -/

/-- `_parse_pubmed_xml` keeps exactly the articles whose parsed title
and abstract are both non-empty, promoting each kept article. -/
lemma parse_pubmed_xml_eq_filter (articles : List PubmedArticle) :
    parse_pubmed_xml articles =
      (articles.filter (fun a => pubmedTitle a ≠ "" ∧ pubmedAbstract a ≠ "")).map
        buildPubmedPaper := by
  induction articles with
  | nil => rfl
  | cons a rest ih =>
    simp only [parse_pubmed_xml] at ih ⊢
    by_cases h : pubmedTitle a = "" ∨ pubmedAbstract a = ""
    · have hnone : parsePubmedArticle a = none := by
        simp [parsePubmedArticle, h]
      have hdec : (decide (pubmedTitle a ≠ "" ∧ pubmedAbstract a ≠ "")) = false := by
        simp only [decide_eq_false_iff_not]
        tauto
      rw [List.filterMap_cons, hnone, List.filter_cons]
      simp only [hdec, Bool.false_eq_true, if_false]
      exact ih
    · have hsome : parsePubmedArticle a = some (buildPubmedPaper a) := by
        simp [parsePubmedArticle, h]
      have hdec : (decide (pubmedTitle a ≠ "" ∧ pubmedAbstract a ≠ "")) = true := by
        simp only [decide_eq_true_eq]
        tauto
      rw [List.filterMap_cons, hsome, List.filter_cons]
      simp only [hdec, if_true]
      rw [List.map_cons, ih]

/-- Concrete fixture: a preprint record with empty title and abstract. -/
def c1Item : BiorxivItem :=
  { category := "", title := "", abstract := "", authors := "", doi := "10.9/z"
    date := "", author_corresponding_institution := "" }

/-- Concrete fixture: a one-page server presenting `c1Item`. -/
def c1Server : Nat → Option BiorxivResponse := fun cursor =>
  if cursor = 0 then some { collection := [c1Item], total := 1 } else none

/-- C1 counterexample: the preprint-server fetcher promotes a record
with empty title and empty abstract to a `BiomedPaper` (no filters
supplied), so the required-field invariant does not hold for every
source. -/
theorem C1_counterexample :
    (fetch_biorxiv_papers c1Server "biorxiv" [] [] 10 5).map BiomedPaper.title = [""] ∧
    (fetch_biorxiv_papers c1Server "biorxiv" [] [] 10 5).map BiomedPaper.summary = [""] ∧
    (fetch_biorxiv_papers c1Server "biorxiv" [] [] 10 5).length = 1 := by decide

/-- C1 (amended): the PubMed parser constructs a Paper iff both parsed
title and abstract are non-empty, so every PubMed paper has non-empty
title and summary; the bioRxiv/medRxiv fetcher applies no such gate and
copies title and abstract verbatim into the constructed Paper. -/
theorem C1_required_fields_amended :
    (∀ articles : List PubmedArticle,
       parse_pubmed_xml articles =
         (articles.filter (fun a => pubmedTitle a ≠ "" ∧ pubmedAbstract a ≠ "")).map
           buildPubmedPaper) ∧
    (∀ (articles : List PubmedArticle) (p : BiomedPaper),
       p ∈ parse_pubmed_xml articles → p.title ≠ "" ∧ p.summary ≠ "") ∧
    (∀ (server : String) (item : BiorxivItem),
       (mkBiorxivPaper server item).title = item.title ∧
       (mkBiorxivPaper server item).summary = item.abstract) := by
  refine ⟨parse_pubmed_xml_eq_filter, ?_, fun server item => ⟨rfl, rfl⟩⟩
  intro articles p hp
  rw [parse_pubmed_xml_eq_filter] at hp
  rcases List.mem_map.mp hp with ⟨a, ha, rfl⟩
  have hcond := of_decide_eq_true (List.mem_filter.mp ha).2
  exact ⟨hcond.1, hcond.2⟩

/-- Concrete fixture: a well-formed PubMed article. -/
def c1PubmedArticle : PubmedArticle :=
  { PMID := some "1"
    ArticleTitle := some "T"
    abstractTexts := [{ Label := "", text := "A" }]
    authors := []
    articleIds := []
    journalTitle := none
    pubYear := none
    pubMonth := none
    pubDay := none
    affiliationTexts := [] }

/-- Witness for C1 (amended): a parsed PubMed paper has non-empty title
and summary. -/
theorem C1_required_fields_amended_witness :
    buildPubmedPaper c1PubmedArticle ∈ parse_pubmed_xml [c1PubmedArticle] ∧
    (buildPubmedPaper c1PubmedArticle).title ≠ "" ∧
    (buildPubmedPaper c1PubmedArticle).summary ≠ "" := by
  have hm : buildPubmedPaper c1PubmedArticle ∈ parse_pubmed_xml [c1PubmedArticle] := by
    decide
  exact ⟨hm, C1_required_fields_amended.2.1 [c1PubmedArticle] _ hm⟩
